import Mathlib

/-!
Verification development for the brand semantic-triple generator
(`src/app.py`).  The program's only algorithmic content is:

* `normalize_triples` — a tolerant JSON-shape cascade that coerces an
  arbitrary LLM JSON reply into a pandas `DataFrame` of triples, and
* `fetch_synonyms` — a tolerant cascade extracting a list of trimmed
  synonym strings from an LLM JSON reply.

We shallowly embed the JSON value space, the fragment of pandas
`DataFrame` behaviour the program exercises (construction from a list
of records, column insertion, column drop, CSV header), and the two
functions themselves, and prove/refute the specification's claims.
-/

namespace BrandTriples

/-- JSON values as produced by `json.loads` on the LLM reply.  Object
entries are kept as an insertion-ordered association list, mirroring
Python's insertion-ordered `dict` (keys are unique in any value that
`json.loads` can actually return).  Numbers are modelled as `Int`;
no claim depends on fractional numerics. -/
inductive Json where
  | null
  | bool (b : Bool)
  | num (n : Int)
  | str (s : String)
  | arr (elems : List Json)
  | obj (entries : List (String × Json))

namespace Json

/-- `isinstance(v, list)` -/
def isArr : Json → Bool
  | .arr _ => true
  | _ => false

/-- `isinstance(v, dict)`, returning the entries. -/
def asObj : Json → Option (List (String × Json))
  | .obj m => some m
  | _ => none

/-- `isinstance(v, str)`, returning the string. -/
def asStr : Json → Option String
  | .str s => some s
  | _ => none

end Json

/-- `d.get(k)` on a Python dict (entries have unique keys, first match). -/
def lookupJ (m : List (String × Json)) (k : String) : Option Json :=
  (m.find? (fun e => e.1 == k)).map Prod.snd

/-- Python `str.isdigit()` restricted to ASCII digits: true iff the
string is non-empty and every character is a digit.  (Python also
accepts non-ASCII digit code points; none of the program's inputs or
the spec's examples use them.) -/
def pyIsDigit (s : String) : Bool :=
  !s.isEmpty && s.toList.all Char.isDigit

/-- The ASCII whitespace characters stripped by Python `str.strip()`.
(Python also strips non-ASCII Unicode whitespace; none of the claims
depend on it.) -/
def pySpace (c : Char) : Bool :=
  c == ' ' || c == '\t' || c == '\n' || c == '\r' || c == '\x0b' || c == '\x0c'

/-- Python `str.strip()`: remove leading and trailing whitespace. -/
def pyStrip (s : String) : String :=
  ⟨(s.toList.dropWhile pySpace).rdropWhile pySpace⟩

/-! ## The pandas `DataFrame` fragment used by `app.py`

`normalize_triples` builds `pd.DataFrame(triples)` from a Python list,
adds missing columns with `df[col] = ""`, drops a column with
`df.drop(columns=...)`, and the app renders `df.to_csv(index=False)`.
We model exactly that fragment.  A column label is either a string key
or a positional integer (pandas uses `RangeIndex` column labels for
list-of-scalars / list-of-lists data). A missing cell is `none`,
modelling pandas `NaN`. -/

/-- A pandas column label. -/
inductive ColName where
  | str (s : String)
  | nat (n : Nat)
deriving Repr, DecidableEq

/-- A cell: `none` models pandas `NaN` (missing value), `some v` a
stored JSON value. -/
abbrev Cell := Option Json

/-- The fragment of a pandas `DataFrame` the program uses: an ordered
list of column labels and the rows (each row aligned with `cols`). -/
structure DataFrame where
  cols : List ColName
  rows : List (List Cell)

/-- Column labels in order of first appearance over a list of records,
as pandas collects them for list-of-dict data (insertion order is kept
for plain dicts). -/
def recordCols (data : List (List (String × Json))) : List String :=
  data.foldl (fun acc o => (o.map Prod.fst).foldl
    (fun a k => if a.contains k then a else a ++ [k]) acc) []

/-- `pd.DataFrame(data)` for a list of dicts: one row per dict, columns
by first appearance, cells missing from a dict become `NaN`. -/
def recordsFrame (data : List (List (String × Json))) : DataFrame :=
  ⟨(recordCols data).map ColName.str,
   data.map (fun o => (recordCols data).map (fun c => lookupJ o c))⟩

/-- `pd.DataFrame(data)` for a non-empty list whose first element is a
list: one row per element, positional columns `0..n-1`, ragged rows
padded with `NaN`.  Requires every element to be a list (pandas raises
otherwise). -/
def positionalFrame (data : List (List Json)) : DataFrame :=
  let n := data.foldl (fun m r => max m r.length) 0
  ⟨(List.range n).map ColName.nat,
   data.map (fun r => (List.range n).map (fun i => r.get? i))⟩

/-- All-dicts test over a list, returning the records. -/
def seqObjs : List Json → Option (List (List (String × Json)))
  | [] => some []
  | j :: t =>
    match j.asObj, seqObjs t with
    | some o, some os => some (o :: os)
    | _, _ => none

/-- All-lists test over a list, returning the rows. -/
def seqArrs : List Json → Option (List (List Json))
  | [] => some []
  | j :: t =>
    match j, seqArrs t with
    | .arr r, some rs => some (r :: rs)
    | _, _ => none

/-- `pd.DataFrame(data)` for a Python list.  Modelled from pandas
semantics: the constructor dispatches on the first element —
list-of-dicts become records (raising when a later element is not a
dict), list-of-lists become positional rows (raising when a later
element is not a list), and any other first element yields a single
object column `0` holding the elements themselves.  The empty list
yields an empty frame. -/
def mkDataFrame : List Json → Except String DataFrame
  | [] => .ok ⟨[], []⟩
  | j :: rest =>
    match j with
    | .obj _ =>
      match seqObjs (j :: rest) with
      | some objs => .ok (recordsFrame objs)
      | none => .error "mixing dicts with non-dict rows"
    | .arr _ =>
      match seqArrs (j :: rest) with
      | some rowsL => .ok (positionalFrame rowsL)
      | none => .error "mixing lists with non-list rows"
    | _ => .ok ⟨[ColName.nat 0], (j :: rest).map (fun x => [some x])⟩

/-- `col in df`: membership test against the column labels. -/
def hasCol (df : DataFrame) (c : ColName) : Bool :=
  df.cols.contains c

/-- `df[c] = v` for a column `c` not yet present: appends the column at
the end with the scalar broadcast to every row. -/
def addCol (df : DataFrame) (c : ColName) (v : Json) : DataFrame :=
  ⟨df.cols ++ [c], df.rows.map (fun r => r ++ [some v])⟩

/-- One step of the default-filling loop:
`if col not in df: df[col] = ""`. -/
def ensureCol (df : DataFrame) (s : String) : DataFrame :=
  if hasCol df (ColName.str s) then df else addCol df (ColName.str s) (Json.str "")

/-- The canonical field names, in the order the loop visits them. -/
def canonicalCols : List String := ["subject", "predicate", "object", "category"]

/-- The `for col in (...)` loop of `normalize_triples`. -/
def addDefaults (df : DataFrame) : DataFrame :=
  canonicalCols.foldl ensureCol df

/-- `df.drop(columns=s)`: remove the column labelled `s` and its cells
from every row. -/
def dropCol (df : DataFrame) (s : String) : DataFrame :=
  ⟨df.cols.filter (fun c => !(c == ColName.str s)),
   df.rows.map (fun r =>
     ((df.cols.zip r).filter (fun p => !(p.1 == ColName.str s))).map Prod.snd)⟩

/-- Render a column label the way `to_csv` writes it in the header. -/
def renderCol : ColName → String
  | .str s => s
  | .nat n => toString n

/-- The header row of `df.to_csv(index=False)`: the column labels in
the frame's column order. -/
def toCsvHeader (df : DataFrame) : List String :=
  df.cols.map renderCol

/-! ## `normalize_triples` -/

/-- The shape cascade of `normalize_triples` (`src/app.py:50-60`),
selecting the Python list `triples` from the raw JSON value:
a list is used as is; a dict is probed for a list under `"triples"`,
then for all-numeric keys (values in stored order), then for the first
list-valued entry, defaulting to the empty list; anything else yields
the empty list. -/
def extractTriples (raw : Json) : List Json :=
  match raw with
  | .arr l => l
  | .obj m =>
    match lookupJ m "triples" with
    | some (.arr l) => l
    | _ =>
      if m.all (fun kv => pyIsDigit kv.1) then
        m.map Prod.snd
      else
        match (m.map Prod.snd).find? Json.isArr with
        | some (.arr l) => l
        | _ => []
  | _ => []

/-- `normalize_triples(raw)` (`src/app.py:45-68`).  The checkbox state
`include_category` is a free variable of the Streamlit script; we pass
it explicitly.  The result is `Except` because `pd.DataFrame` raises on
some mixed lists; every branch the claims exercise returns `.ok`. -/
def normalizeTriples (includeCategory : Bool) (raw : Json) : Except String DataFrame :=
  (mkDataFrame (extractTriples raw)).map (fun df0 =>
    let df := addDefaults df0
    if !includeCategory && hasCol df (ColName.str "category") then
      dropCol df "category"
    else df)

/-- The frame produced, defaulting to an empty frame on the (never
exercised) error branch; convenient for stating row/column facts. -/
def runNT (includeCategory : Bool) (raw : Json) : DataFrame :=
  match normalizeTriples includeCategory raw with
  | .ok df => df
  | .error _ => ⟨[], []⟩

/-- The cell of row `i` at string-labelled column `c` (the first column
with that label, as pandas resolves a unique label); `none` when the
row or column is absent or the cell is `NaN`. -/
def cellAt (df : DataFrame) (i : Nat) (c : String) : Option Json :=
  match (df.cols.zip (df.rows.getD i [])).find? (fun p => p.1 == ColName.str c) with
  | some p => p.2
  | none => none

/-! ## `fetch_synonyms` -/

/-- `l.mapM asStr`: all-strings test returning the strings. -/
def strList (l : List Json) : Option (List String) :=
  l.mapM Json.asStr

/-- The shape cascade of `fetch_synonyms` (`src/app.py:83-107`) applied
to the parsed LLM reply: (1) a list under `"synonyms"` → its string
elements, stripped; (2) an all-numeric-key dict under `"synonyms"` →
its string values, stripped; (3) a top-level all-numeric-key dict → its
string values, stripped; (4) the first list-of-strings among the
dict's values, stripped; (5) a bare list of strings, stripped;
otherwise the empty list. -/
def synCascade (raw : Json) : List String :=
  match raw with
  | .obj m =>
    match lookupJ m "synonyms" with
    | some (.arr l) => (l.filterMap Json.asStr).map pyStrip
    | some (.obj inner) =>
      if inner.all (fun kv => pyIsDigit kv.1) then
        ((inner.map Prod.snd).filterMap Json.asStr).map pyStrip
      else synDictRest m
    | _ => synDictRest m
  | .arr l =>
    match strList l with
    | some ws => ws.map pyStrip
    | none => []
  | _ => []
where
  /-- Branches 3 and 4 of the cascade, reached for a dict either
  lacking a `"synonyms"` key or holding an unusable value there. -/
  synDictRest (m : List (String × Json)) : List String :=
    if m.all (fun kv => pyIsDigit kv.1) then
      ((m.map Prod.snd).filterMap Json.asStr).map pyStrip
    else
      match (m.map Prod.snd).findSome?
          (fun v => match v with | .arr l => strList l | _ => none) with
      | some ws => ws.map pyStrip
      | none => []

/-- The prompt string built by `fetch_synonyms` (`src/app.py:76-80`). -/
def synPrompt (label text : String) : String :=
  "For the following " ++ label ++
  " terms, suggest 5–10 closely related words or phrases. " ++
  "Return ONLY a JSON object whose single key is `synonyms`, mapped to an array of strings.\n\n"
  ++ text

/-- `fetch_synonyms(text, label)` (`src/app.py:71-107`).  The LLM call
`gpt_json` is abstracted as an oracle from the prompt to the parsed
JSON reply; the second component counts the requests issued, so that
"no request" facts are statable.  A blank input short-circuits before
any request. -/
def fetchSynonyms (text label : String) (llm : String → Json) : List String × Nat :=
  if pyStrip text = "" then ([], 0)
  else (synCascade (llm (synPrompt label text)), 1)

/-! ## Shape predicates used to state claims -/

/-- `isinstance(raw.get("triples"), list)`: the condition of the
second cascade branch. -/
def hasTriplesList (m : List (String × Json)) : Bool :=
  match lookupJ m "triples" with
  | some (.arr _) => true
  | _ => false

/-- A JSON value that is neither a sequence nor a keyed mapping. -/
def isScalar : Json → Bool
  | .arr _ => false
  | .obj _ => false
  | _ => true

/-! ## Helper lemmas -/

/-- A keyed mapping past branches 2 and 3 falls to the first-list
probe of the cascade. -/
lemma extractTriples_obj_rest (m : List (String × Json))
    (h1 : hasTriplesList m = false)
    (h2 : m.all (fun kv => pyIsDigit kv.1) = false) :
    extractTriples (Json.obj m) =
      (match (m.map Prod.snd).find? Json.isArr with
       | some (.arr l) => l
       | _ => []) := by
  unfold hasTriplesList at h1
  simp only [extractTriples]
  cases hl : lookupJ m "triples" with
  | none => simp [h2]
  | some j =>
    rw [hl] at h1
    cases j <;> simp_all [h2]

/-- With no list-valued entry either, the cascade selects no triples. -/
lemma extractTriples_no_list (m : List (String × Json))
    (h1 : hasTriplesList m = false)
    (h2 : m.all (fun kv => pyIsDigit kv.1) = false)
    (h3 : (m.map Prod.snd).find? Json.isArr = none) :
    extractTriples (Json.obj m) = [] := by
  rw [extractTriples_obj_rest m h1 h2, h3]

/-- With a first list-valued entry, the cascade selects it. -/
lemma extractTriples_first_list (m : List (String × Json)) (l : List Json)
    (h1 : hasTriplesList m = false)
    (h2 : m.all (fun kv => pyIsDigit kv.1) = false)
    (h3 : (m.map Prod.snd).find? Json.isArr = some (Json.arr l)) :
    extractTriples (Json.obj m) = l := by
  rw [extractTriples_obj_rest m h1 h2, h3]

/-- A scalar selects no triples. -/
lemma extractTriples_scalar (raw : Json) (h : isScalar raw = true) :
    extractTriples raw = [] := by
  cases raw <;> simp [isScalar] at h <;> rfl

/-- `normalize_triples` only looks at the raw value through the
selected triples list. -/
lemma normalizeTriples_eq_of_extract (flag : Bool) (raw : Json) (l : List Json)
    (he : extractTriples raw = l) :
    normalizeTriples flag raw = normalizeTriples flag (Json.arr l) := by
  unfold normalizeTriples
  rw [he]
  rfl

/-- Ensuring a column makes it present. -/
lemma hasCol_ensureCol_self (df : DataFrame) (s : String) :
    hasCol (ensureCol df s) (ColName.str s) = true := by
  unfold ensureCol
  by_cases h : hasCol df (ColName.str s) = true
  · rw [if_pos h]; exact h
  · rw [if_neg h]
    simp [hasCol, addCol]

/-- The default-filling loop always leaves a `category` column. -/
lemma hasCol_addDefaults_category (df : DataFrame) :
    hasCol (addDefaults df) (ColName.str "category") = true := by
  unfold addDefaults canonicalCols
  simp only [List.foldl]
  exact hasCol_ensureCol_self _ _

/-- A dropped column label is gone from the column list. -/
lemma not_mem_dropCol (df : DataFrame) (s : String) :
    ColName.str s ∉ (dropCol df s).cols := by
  simp [dropCol, List.mem_filter]

/-- `all` over a mapped list (heterogeneous version). -/
lemma all_map' {α β : Type} (l : List α) (f : α → β) (p : β → Bool) :
    (l.map f).all p = l.all (fun x => p (f x)) := by
  induction l with
  | nil => rfl
  | cons a t ih => simp [ih]

/-- `ColName.str` is compatible with boolean equality. -/
lemma str_beq (a c : String) : (ColName.str a == ColName.str c) = (a == c) := by
  by_cases h : a = c
  · subst h; simp
  · rw [beq_eq_false_iff_ne.mpr h, beq_eq_false_iff_ne.mpr (fun e => h (by injection e))]

/-- Column membership of a string label transfers along `ColName.str`. -/
lemma contains_map_str (l : List String) (c : String) :
    (l.map ColName.str).contains (ColName.str c) = l.contains c := by
  induction l with
  | nil => rfl
  | cons a t ih => simp only [List.map_cons, List.contains_cons, str_beq, ih]

/-- Boolean equality on column labels is decided propositional
equality. -/
lemma beq_colname (a b : ColName) : (a == b) = decide (a = b) := rfl

/-- Membership in a one-element extension of a column list. -/
lemma contains_append_singleton (ds : List ColName) (x y : ColName) :
    (ds ++ [x]).contains y = (ds.contains y || y == x) := by
  induction ds with
  | nil => simp [List.contains_cons, beq_colname]
  | cons a t ih => simp [List.contains_cons, ih, beq_colname, Bool.or_assoc]

/-- Closed form of the default-filling loop over any duplicate-free
list of column names: the names not yet present are appended in order,
and every row is padded with empty-string cells for them. -/
lemma foldl_ensureCol (cs : List String) (hnd : cs.Nodup) (df : DataFrame) :
    cs.foldl ensureCol df =
      ⟨df.cols ++ (cs.filter (fun c => !df.cols.contains (ColName.str c))).map ColName.str,
       df.rows.map (fun r =>
         r ++ (cs.filter (fun c => !df.cols.contains (ColName.str c))).map
           (fun _ => some (Json.str "")))⟩ := by
  induction cs generalizing df with
  | nil => simp
  | cons c cs ih =>
    rcases List.nodup_cons.mp hnd with ⟨hc, hnd'⟩
    rw [List.foldl_cons]
    by_cases h : hasCol df (ColName.str c) = true
    · have hcon : df.cols.contains (ColName.str c) = true := h
      have hmem : ColName.str c ∈ df.cols := by simpa using hcon
      have hfilc : List.filter (fun c' => !df.cols.contains (ColName.str c')) (c :: cs) =
          List.filter (fun c' => !df.cols.contains (ColName.str c')) cs := by
        rw [List.filter_cons]
        simp [hmem]
      rw [show ensureCol df c = df by unfold ensureCol; rw [if_pos h]]
      rw [ih hnd' df, hfilc]
    · have hcon : df.cols.contains (ColName.str c) = false := by
        unfold hasCol at h; exact Bool.eq_false_iff.mpr h
      have hmem : ColName.str c ∉ df.cols := by simpa using hcon
      have hfilc : List.filter (fun c' => !df.cols.contains (ColName.str c')) (c :: cs) =
          c :: List.filter (fun c' => !df.cols.contains (ColName.str c')) cs := by
        rw [List.filter_cons]
        simp [hmem]
      rw [show ensureCol df c = addCol df (ColName.str c) (Json.str "") by
        unfold ensureCol; rw [if_neg h]]
      rw [ih hnd' (addCol df (ColName.str c) (Json.str ""))]
      have hfil : List.filter
            (fun c' => !(df.cols ++ [ColName.str c]).contains (ColName.str c')) cs =
          List.filter (fun c' => !df.cols.contains (ColName.str c')) cs := by
        refine List.filter_congr (fun c' hc' => ?_)
        have hne : c' ≠ c := fun e => hc (e ▸ hc')
        rw [contains_append_singleton, str_beq, beq_eq_false_iff_ne.mpr hne,
          Bool.or_false]
      simp only [addCol, hfil, hfilc, List.map_cons, List.map_map]
      refine congrArg₂ DataFrame.mk (by simp [List.append_assoc]) ?_
      simp [Function.comp, List.append_assoc]

/-- All-dicts lists pass the `seqObjs` test. -/
lemma seqObjs_map (objs : List (List (String × Json))) :
    seqObjs (objs.map Json.obj) = some objs := by
  induction objs with
  | nil => rfl
  | cons o os ih => simp [seqObjs, Json.asObj, ih]

/-- `pd.DataFrame` on a list of records builds the records frame. -/
lemma mkDataFrame_records (objs : List (List (String × Json))) :
    mkDataFrame (objs.map Json.obj) = .ok (recordsFrame objs) := by
  cases objs with
  | nil => rfl
  | cons o os =>
    have h := seqObjs_map (o :: os)
    simp only [List.map_cons] at h
    simp [mkDataFrame, h]

/-- Closed form of `normalize_triples` (category enabled) on an array
of records: input columns in first-appearance order, then the canonical
columns not already present, in canonical order; one row per record,
`lookupJ` cells for the input columns (`none` models `NaN` for a key
the record lacks), empty-string cells for the appended columns. -/
lemma normalizeTriples_records (objs : List (List (String × Json))) :
    normalizeTriples true (Json.arr (objs.map Json.obj)) =
      .ok ⟨(recordCols objs).map ColName.str ++
            (canonicalCols.filter (fun c => !(recordCols objs).contains c)).map
              ColName.str,
           objs.map (fun o =>
             (recordCols objs).map (fun c => lookupJ o c) ++
             (canonicalCols.filter (fun c => !(recordCols objs).contains c)).map
               (fun _ => some (Json.str "")))⟩ := by
  unfold normalizeTriples
  rw [show extractTriples (Json.arr (objs.map Json.obj)) = objs.map Json.obj from rfl]
  rw [mkDataFrame_records]
  simp only [Except.map, Bool.not_true, Bool.false_and, Bool.false_eq_true, if_false]
  have hcols : ∀ c : String,
      ((recordCols objs).map ColName.str).contains (ColName.str c) =
        (recordCols objs).contains c := fun c => contains_map_str _ c
  unfold addDefaults
  rw [foldl_ensureCol canonicalCols (by decide) (recordsFrame objs)]
  simp only [recordsFrame]
  refine congrArg Except.ok (congrArg₂ DataFrame.mk ?_ ?_)
  · refine congrArg _ (congrArg _ (List.filter_congr (fun c _ => ?_)))
    rw [hcols]
  · rw [List.map_map]
    refine List.map_congr_left (fun o _ => ?_)
    simp only [Function.comp]
    refine congrArg _ (congrArg _ (List.filter_congr (fun c _ => ?_)))
    rw [hcols]

/-- Keys of a record in the data survive into `recordCols`: the inner
key-collecting fold only grows the accumulator. -/
lemma mem_keys_foldl_mono (ks : List String) (acc : List String) (k : String)
    (h : k ∈ acc) :
    k ∈ ks.foldl (fun a k' => if a.contains k' then a else a ++ [k']) acc := by
  induction ks generalizing acc with
  | nil => exact h
  | cons k' t ih =>
    rw [List.foldl_cons]
    by_cases hk : acc.contains k' = true
    · rw [if_pos hk]; exact ih acc h
    · rw [if_neg hk]; exact ih _ (List.mem_append_left _ h)

/-- The inner fold picks up every key of the scanned record. -/
lemma mem_keys_foldl_self (k : String) :
    ∀ (ks acc : List String), k ∈ ks →
      k ∈ ks.foldl (fun a k' => if a.contains k' then a else a ++ [k']) acc := by
  intro ks
  induction ks with
  | nil => intro acc h; cases h
  | cons k' t ih =>
    intro acc h
    rw [List.foldl_cons]
    rcases List.mem_cons.mp h with rfl | hmem
    · by_cases hk : acc.contains k = true
      · rw [if_pos hk]
        exact mem_keys_foldl_mono t acc k (by simpa using hk)
      · rw [if_neg hk]
        exact mem_keys_foldl_mono t _ k (List.mem_append_right _ (by simp))
    · by_cases hk : acc.contains k' = true
      · rw [if_pos hk]; exact ih acc hmem
      · rw [if_neg hk]; exact ih _ hmem

/-- The outer record fold only grows the accumulator. -/
lemma mem_recordCols_foldl_mono (data : List (List (String × Json)))
    (acc : List String) (k : String) (h : k ∈ acc) :
    k ∈ data.foldl (fun a o => (o.map Prod.fst).foldl
      (fun a' k' => if a'.contains k' then a' else a' ++ [k']) a) acc := by
  induction data generalizing acc with
  | nil => exact h
  | cons o t ih => exact ih _ (mem_keys_foldl_mono _ acc k h)

/-- Every key of every record appears among the collected columns. -/
lemma mem_recordCols (data : List (List (String × Json)))
    (o : List (String × Json)) (k : String)
    (ho : o ∈ data) (hk : k ∈ o.map Prod.fst) :
    k ∈ recordCols data := by
  unfold recordCols
  have haux : ∀ (d : List (List (String × Json))) (acc : List String), o ∈ d →
      k ∈ d.foldl (fun a o' => (o'.map Prod.fst).foldl
        (fun a' k' => if a'.contains k' then a' else a' ++ [k']) a) acc := by
    intro d
    induction d with
    | nil => intro acc hmem; cases hmem
    | cons o' t ih =>
      intro acc hmem
      rcases List.mem_cons.mp hmem with rfl | hmem'
      · exact mem_recordCols_foldl_mono t _ k (mem_keys_foldl_self k _ _ hk)
      · exact ih _ hmem'
  exact haux data [] ho

/-- `runNT` under a successful frame construction. -/
lemma runNT_eq (flag : Bool) (raw : Json) (df0 : DataFrame)
    (h : mkDataFrame (extractTriples raw) = .ok df0) :
    runNT flag raw =
      (if !flag && hasCol (addDefaults df0) (ColName.str "category") then
        dropCol (addDefaults df0) "category"
      else addDefaults df0) := by
  unfold runNT normalizeTriples
  rw [h]
  rfl

/-- The default-filling loop does not change the number of rows. -/
lemma addDefaults_rows_length (df : DataFrame) :
    (addDefaults df).rows.length = df.rows.length := by
  unfold addDefaults
  rw [foldl_ensureCol canonicalCols (by decide) df]
  simp

/-- Dropping a column does not change the number of rows. -/
lemma dropCol_rows_length (df : DataFrame) (s : String) :
    (dropCol df s).rows.length = df.rows.length := by
  simp [dropCol]

/-- The normalizer produces one row per record of a record-array
input, for either checkbox state. -/
lemma runNT_records_length (flag : Bool) (objs : List (List (String × Json))) :
    (runNT flag (Json.arr (objs.map Json.obj))).rows.length = objs.length := by
  rw [runNT_eq flag _ (recordsFrame objs)
    (by rw [show extractTriples (Json.arr (objs.map Json.obj)) = objs.map Json.obj
          from rfl, mkDataFrame_records])]
  by_cases h : (!flag && hasCol (addDefaults (recordsFrame objs))
      (ColName.str "category")) = true
  · rw [if_pos h, dropCol_rows_length, addDefaults_rows_length]
    simp [recordsFrame]
  · rw [if_neg h, addDefaults_rows_length]
    simp [recordsFrame]

/-- With all-numeric keys, the `"triples"` probe finds nothing. -/
lemma lookupJ_triples_none_of_digit (m : List (String × Json))
    (h : m.all (fun kv => pyIsDigit kv.1) = true) :
    lookupJ m "triples" = none := by
  unfold lookupJ
  have hf : List.find? (fun e => e.1 == "triples") m = none := by
    rw [List.find?_eq_none]
    intro e he hbeq
    have hd : pyIsDigit e.1 = true := by
      have := List.all_eq_true.mp h e he
      simpa using this
    rw [eq_of_beq hbeq] at hd
    exact absurd hd (by decide)
  rw [hf]
  rfl

/-- With all-numeric keys, the cascade selects the mapping's values in
stored order. -/
lemma extractTriples_digit (m : List (String × Json))
    (h : m.all (fun kv => pyIsDigit kv.1) = true) :
    extractTriples (Json.obj m) = m.map Prod.snd := by
  simp only [extractTriples]
  rw [lookupJ_triples_none_of_digit m h]
  simp [h]

/-- Stripping is idempotent: a stripped string neither starts nor ends
with whitespace, so stripping it again changes nothing. -/
lemma pyStrip_idem (s : String) : pyStrip (pyStrip s) = pyStrip s := by
  unfold pyStrip
  refine congrArg String.mk ?_
  rw [show (String.mk ((s.toList.dropWhile pySpace).rdropWhile pySpace)).toList =
        (s.toList.dropWhile pySpace).rdropWhile pySpace from rfl]
  have h1 : ((s.toList.dropWhile pySpace).rdropWhile pySpace).dropWhile pySpace =
      (s.toList.dropWhile pySpace).rdropWhile pySpace := by
    rw [List.dropWhile_eq_self_iff]
    intro hl
    have hpre := List.rdropWhile_prefix pySpace (s.toList.dropWhile pySpace)
    have hlt : 0 < (s.toList.dropWhile pySpace).length :=
      Nat.lt_of_lt_of_le hl hpre.length_le
    have hget : ((s.toList.dropWhile pySpace).rdropWhile pySpace).get ⟨0, hl⟩ =
        (s.toList.dropWhile pySpace).get ⟨0, hlt⟩ := by
      simp only [List.get_eq_getElem]
      exact hpre.getElem hl
    rw [hget]
    exact List.dropWhile_get_zero_not pySpace s.toList hlt
  rw [h1, List.rdropWhile_idempotent]

/-- Every result of the synonym cascade is a stripped list (possibly
empty). -/
lemma synDictRest_strip (m : List (String × Json)) :
    synCascade.synDictRest m = [] ∨
      ∃ ws, synCascade.synDictRest m = List.map pyStrip ws := by
  unfold synCascade.synDictRest
  split
  · right; exact ⟨_, rfl⟩
  · split
    · right; exact ⟨_, rfl⟩
    · left; rfl

/-- Every branch of the cascade yields either the empty list or a
stripped list. -/
lemma synCascade_strip (raw : Json) :
    synCascade raw = [] ∨ ∃ ws, synCascade raw = List.map pyStrip ws := by
  cases raw with
  | obj m =>
    simp only [synCascade]
    split
    · right; exact ⟨_, rfl⟩
    · split
      · right; exact ⟨_, rfl⟩
      · exact synDictRest_strip m
    · exact synDictRest_strip m
  | arr l =>
    simp only [synCascade]
    split
    · right; exact ⟨_, rfl⟩
    · left; rfl
  | null => left; rfl
  | bool b => left; rfl
  | num n => left; rfl
  | str s => left; rfl

/-! ## Claims -/

/-- **C1, counterexample.**  The spec's final cascade step claims a
keyed mapping matching no earlier branch is treated as a single triple
(one output row).  On the code, `{"note": "hi"}` — not a sequence, no
`"triples"` list, key not numeric, no list-valued entry — produces a
frame with the four default columns and zero rows, not one. -/
theorem normalize_triples_single_dict_gives_no_row :
    normalizeTriples true (Json.obj [("note", Json.str "hi")]) =
      .ok ⟨[ColName.str "subject", ColName.str "predicate",
            ColName.str "object", ColName.str "category"], []⟩ := rfl

/-- **C1, amended.**  A keyed mapping that matches none of the earlier
cascade branches and has no list-valued entry selects an empty triples
list: the output is the default columns with zero rows — the mapping's
own fields never appear. -/
theorem normalize_triples_unmatched_dict_empty (flag : Bool)
    (m : List (String × Json))
    (h1 : hasTriplesList m = false)
    (h2 : m.all (fun kv => pyIsDigit kv.1) = false)
    (h3 : (m.map Prod.snd).find? Json.isArr = none) :
    normalizeTriples flag (Json.obj m) =
      .ok ⟨(if flag then canonicalCols else ["subject", "predicate", "object"]).map
            ColName.str, []⟩ := by
  rw [normalizeTriples_eq_of_extract flag _ [] (extractTriples_no_list m h1 h2 h3)]
  cases flag <;> rfl

/-- **C1, witness.**  The amended claim applied to the concrete
mapping `{"note": "hi", "more": 2}` with the category column
disabled. -/
theorem normalize_triples_unmatched_dict_empty_witness :
    normalizeTriples false (Json.obj [("note", Json.str "hi"), ("more", Json.num 2)]) =
      .ok ⟨[ColName.str "subject", ColName.str "predicate", ColName.str "object"], []⟩ :=
  normalize_triples_unmatched_dict_empty false
    [("note", Json.str "hi"), ("more", Json.num 2)] rfl rfl rfl

/-- **C4.**  A value that is neither a sequence nor a mapping — `null`,
a bare string, a number, a boolean — and likewise the empty mapping
`{}` produce a frame with zero rows, and the computation succeeds
(returns `.ok`, never the raising branch) for all of them. -/
theorem normalize_triples_unrecognized_empty (flag : Bool) (raw : Json)
    (h : isScalar raw = true) :
    normalizeTriples flag raw =
      .ok ⟨(if flag then canonicalCols else ["subject", "predicate", "object"]).map
            ColName.str, []⟩ ∧
    normalizeTriples flag (Json.obj []) =
      .ok ⟨(if flag then canonicalCols else ["subject", "predicate", "object"]).map
            ColName.str, []⟩ := by
  constructor
  · rw [normalizeTriples_eq_of_extract flag _ [] (extractTriples_scalar raw h)]
    cases flag <;> rfl
  · rw [normalizeTriples_eq_of_extract flag (Json.obj []) [] rfl]
    cases flag <;> rfl

/-- **C4, witness.**  The claim applied to `null` with the category
column enabled. -/
theorem normalize_triples_unrecognized_empty_witness :
    normalizeTriples true Json.null =
      .ok ⟨[ColName.str "subject", ColName.str "predicate",
            ColName.str "object", ColName.str "category"], []⟩ ∧
    normalizeTriples true (Json.obj []) =
      .ok ⟨[ColName.str "subject", ColName.str "predicate",
            ColName.str "object", ColName.str "category"], []⟩ :=
  normalize_triples_unrecognized_empty true Json.null rfl

/-- **C5.**  Wrapping any sequence `s` as `{"triples": s}` normalizes
exactly as the sequence itself, for either state of the category
checkbox. -/
theorem normalize_triples_unwraps_triples_key (flag : Bool) (s : List Json) :
    normalizeTriples flag (Json.obj [("triples", Json.arr s)]) =
      normalizeTriples flag (Json.arr s) := rfl

/-- **C7.**  With category inclusion disabled, no successful output of
`normalize_triples` carries a `category` column, whatever the input
shape. -/
theorem normalize_triples_category_disabled (raw : Json) (df : DataFrame)
    (h : normalizeTriples false raw = .ok df) :
    ColName.str "category" ∉ df.cols := by
  unfold normalizeTriples at h
  cases hm : mkDataFrame (extractTriples raw) with
  | error e => rw [hm] at h; exact absurd h (by simp [Except.map])
  | ok df0 =>
    rw [hm] at h
    simp only [Except.map, Except.ok.injEq, Bool.not_false, Bool.true_and,
      hasCol_addDefaults_category, if_true] at h
    rw [← h]
    exact not_mem_dropCol _ _

/-- **C7, witness.**  The claim applied to the one-record input
`[{"category": "x"}]`: the result has only the three other canonical
columns. -/
theorem normalize_triples_category_disabled_witness :
    ColName.str "category" ∉
      (DataFrame.mk [ColName.str "subject", ColName.str "predicate", ColName.str "object"]
        [[some (Json.str ""), some (Json.str ""), some (Json.str "")]]).cols :=
  normalize_triples_category_disabled
    (Json.arr [Json.obj [("category", Json.str "x")]]) _ rfl

/-- **C8.**  For blank input text (empty or whitespace-only),
`fetch_synonyms` returns the empty list and issues no LLM request,
whatever the label and whatever the LLM would have replied. -/
theorem fetch_synonyms_blank_no_request (text label : String)
    (llm : String → Json) (h : pyStrip text = "") :
    fetchSynonyms text label llm = ([], 0) := by
  unfold fetchSynonyms
  rw [if_pos h]

/-- **C8, witness.**  The claim applied to the whitespace-only input
`"   "`. -/
theorem fetch_synonyms_blank_no_request_witness :
    fetchSynonyms "   " "audience" (fun _ => Json.null) = ([], 0) :=
  fetch_synonyms_blank_no_request "   " "audience" (fun _ => Json.null) rfl

/-- **C9.**  Every string in any result of the synonym cascade is
already stripped (stripping it again is the identity), and in the
primary branch — a list under `"synonyms"` — the result is exactly the
list's string elements, stripped, with non-string elements silently
dropped. -/
theorem fetch_synonyms_results_stripped (raw : Json) (l : List Json) :
    (∀ s ∈ synCascade raw, pyStrip s = s) ∧
    synCascade (Json.obj [("synonyms", Json.arr l)]) =
      (l.filterMap Json.asStr).map pyStrip := by
  refine ⟨fun s hs => ?_, rfl⟩
  rcases synCascade_strip raw with h | ⟨ws, h⟩
  · rw [h] at hs
    cases hs
  · rw [h] at hs
    rcases List.mem_map.mp hs with ⟨w, _, rfl⟩
    exact pyStrip_idem w

/-- **C9, witness.**  The claim applied to the reply
`{"synonyms": [" a ", 3]}`: the returned `"a"` is strip-fixed, and the
cascade keeps exactly the stripped string elements. -/
theorem fetch_synonyms_results_stripped_witness :
    pyStrip "a" = "a" ∧
    synCascade (Json.obj [("synonyms", Json.arr [Json.str " a ", Json.num 3])]) =
      (([Json.str " a ", Json.num 3] : List Json).filterMap Json.asStr).map pyStrip :=
  ⟨(fetch_synonyms_results_stripped
      (Json.obj [("synonyms", Json.arr [Json.str " a ", Json.num 3])]) []).1
      "a" (by decide),
   (fetch_synonyms_results_stripped Json.null
      [Json.str " a ", Json.num 3]).2⟩

/-- **C10.**  A keyed mapping reaching the final dictionary branch
(no `"triples"` list, keys not all numeric) whose entries include
list-valued ones is normalized exactly like its first list-valued
entry in stored order, however many entries it has. -/
theorem normalize_triples_first_list_entry (flag : Bool)
    (m : List (String × Json)) (l : List Json)
    (h1 : hasTriplesList m = false)
    (h2 : m.all (fun kv => pyIsDigit kv.1) = false)
    (h3 : (m.map Prod.snd).find? Json.isArr = some (Json.arr l)) :
    normalizeTriples flag (Json.obj m) = normalizeTriples flag (Json.arr l) :=
  normalizeTriples_eq_of_extract flag _ l (extractTriples_first_list m l h1 h2 h3)

/-- **C2, counterexample.**  For the array
`[{"subject":"a"}, {"predicate":"b"}]`, the first row's `predicate`
cell is `NaN` (here `none`), not the empty string: the per-column
default only fires for columns absent from the whole table, so a
canonical field missing from one element but present in another is not
filled.  (For contrast, `object` — missing from every element — is
filled with `""`.) -/
theorem normalize_triples_partial_field_nan :
    cellAt (runNT true (Json.arr [Json.obj [("subject", Json.str "a")],
        Json.obj [("predicate", Json.str "b")]])) 0 "predicate" = none ∧
    cellAt (runNT true (Json.arr [Json.obj [("subject", Json.str "a")],
        Json.obj [("predicate", Json.str "b")]])) 0 "predicate" ≠
      some (Json.str "") ∧
    cellAt (runNT true (Json.arr [Json.obj [("subject", Json.str "a")],
        Json.obj [("predicate", Json.str "b")]])) 0 "object" =
      some (Json.str "") :=
  ⟨rfl, fun h => Option.noConfusion h, rfl⟩

/-- **C2, amended.**  For every JSON array of keyed mappings the row
count equals the array length, and the output is exactly: the input
columns in first-appearance order holding each record's own values
(`none`, i.e. `NaN`, where a record lacks a key that another record
has), followed by the canonical fields not present in any record,
filled with the empty string in every row. -/
theorem normalize_triples_array_rows (objs : List (List (String × Json))) :
    (runNT true (Json.arr (objs.map Json.obj))).rows.length = objs.length ∧
    normalizeTriples true (Json.arr (objs.map Json.obj)) =
      .ok ⟨(recordCols objs).map ColName.str ++
            (canonicalCols.filter (fun c => !(recordCols objs).contains c)).map
              ColName.str,
           objs.map (fun o =>
             (recordCols objs).map (fun c => lookupJ o c) ++
             (canonicalCols.filter (fun c => !(recordCols objs).contains c)).map
               (fun _ => some (Json.str "")))⟩ :=
  ⟨runNT_records_length true objs, normalizeTriples_records objs⟩

/-- **C3, counterexample.**  For the single-record array
`[{"object":"x","subject":"a","extra":"e"}]` the CSV header is
`object,subject,extra,predicate,category`: the extra field `extra` is
carried over, and the column order follows the input's key order with
the missing canonical fields appended — not the fixed canonical
order. -/
theorem normalize_triples_csv_order_counterexample :
    toCsvHeader (runNT true (Json.arr [Json.obj
        [("object", Json.str "x"), ("subject", Json.str "a"),
         ("extra", Json.str "e")]])) =
      ["object", "subject", "extra", "predicate", "category"] ∧
    toCsvHeader (runNT true (Json.arr [Json.obj
        [("object", Json.str "x"), ("subject", Json.str "a"),
         ("extra", Json.str "e")]])) ≠
      ["subject", "predicate", "object", "category"] :=
  ⟨rfl, by decide⟩

/-- **C3, amended.**  Records keep every input field (none are
dropped), and the CSV column order is the input keys' first-appearance
order followed by the canonical fields not present in any record, in
canonical order — a fixed canonical order holds only when the input
keys already follow it. -/
theorem normalize_triples_csv_order (objs : List (List (String × Json))) :
    toCsvHeader (runNT true (Json.arr (objs.map Json.obj))) =
      recordCols objs ++
        canonicalCols.filter (fun c => !(recordCols objs).contains c) ∧
    ∀ o ∈ objs, ∀ k ∈ o.map Prod.fst,
      k ∈ toCsvHeader (runNT true (Json.arr (objs.map Json.obj))) := by
  have hrun : runNT true (Json.arr (objs.map Json.obj)) =
      ⟨(recordCols objs).map ColName.str ++
        (canonicalCols.filter (fun c => !(recordCols objs).contains c)).map
          ColName.str,
       objs.map (fun o =>
         (recordCols objs).map (fun c => lookupJ o c) ++
         (canonicalCols.filter (fun c => !(recordCols objs).contains c)).map
           (fun _ => some (Json.str "")))⟩ := by
    unfold runNT
    rw [normalizeTriples_records]
  have hhead : toCsvHeader (runNT true (Json.arr (objs.map Json.obj))) =
      recordCols objs ++
        canonicalCols.filter (fun c => !(recordCols objs).contains c) := by
    rw [hrun]
    unfold toCsvHeader
    simp only [List.map_append, List.map_map]
    have hid : ∀ l : List String, l.map (fun s => renderCol (ColName.str s)) = l := by
      intro l
      induction l with
      | nil => rfl
      | cons a t ih => rw [List.map_cons, ih]; rfl
    exact congrArg₂ _ (hid _) (hid _)
  refine ⟨hhead, fun o ho k hk => ?_⟩
  rw [hhead]
  exact List.mem_append_left _ (mem_recordCols objs o k ho hk)

/-- **C3, amended, witness.**  The amended claim applied to the
counterexample input: the carried-over key `object` appears in the
header. -/
theorem normalize_triples_csv_order_witness :
    "object" ∈ toCsvHeader (runNT true (Json.arr [Json.obj
        [("object", Json.str "x"), ("subject", Json.str "a"),
         ("extra", Json.str "e")]])) :=
  (normalize_triples_csv_order
      [[("object", Json.str "x"), ("subject", Json.str "a"),
        ("extra", Json.str "e")]]).2
    [("object", Json.str "x"), ("subject", Json.str "a"), ("extra", Json.str "e")]
    (List.mem_singleton.mpr rfl) "object" (by decide)

/-- **C6.**  A keyed mapping whose keys are all numeric strings is
normalized exactly like the sequence of its values in stored
(insertion) order, and yields one row per entry. -/
theorem normalize_triples_numbered_dict (flag : Bool)
    (entries : List (String × List (String × Json)))
    (h : entries.all (fun e => pyIsDigit e.1) = true) :
    normalizeTriples flag (Json.obj (entries.map (fun e => (e.1, Json.obj e.2)))) =
      normalizeTriples flag (Json.arr (entries.map (fun e => Json.obj e.2))) ∧
    (runNT flag (Json.obj (entries.map (fun e => (e.1, Json.obj e.2))))).rows.length =
      entries.length := by
  have hall : (entries.map (fun e => (e.1, Json.obj e.2))).all
      (fun kv => pyIsDigit kv.1) = true := by
    rw [all_map']
    simpa using h
  have hvals : (entries.map (fun e => (e.1, Json.obj e.2))).map Prod.snd =
      entries.map (fun e => Json.obj e.2) := by
    rw [List.map_map]
    rfl
  have hext : extractTriples (Json.obj (entries.map (fun e => (e.1, Json.obj e.2)))) =
      entries.map (fun e => Json.obj e.2) := by
    rw [extractTriples_digit _ hall, hvals]
  have h1 := normalizeTriples_eq_of_extract flag _ _ hext
  refine ⟨h1, ?_⟩
  have h2 : runNT flag (Json.obj (entries.map (fun e => (e.1, Json.obj e.2)))) =
      runNT flag (Json.arr (entries.map (fun e => Json.obj e.2))) := by
    unfold runNT
    rw [h1]
  have h3 : entries.map (fun e => Json.obj e.2) =
      (entries.map Prod.snd).map Json.obj := by
    rw [List.map_map]
    rfl
  rw [h2, h3, runNT_records_length]
  simp

/-- **C6, witness.**  The claim applied to
`{"0": {"subject":"s0"}, "1": {"predicate":"p1"}}` with the category
column enabled: two rows, in key order. -/
theorem normalize_triples_numbered_dict_witness :
    normalizeTriples true (Json.obj [("0", Json.obj [("subject", Json.str "s0")]),
        ("1", Json.obj [("predicate", Json.str "p1")])]) =
      normalizeTriples true (Json.arr [Json.obj [("subject", Json.str "s0")],
        Json.obj [("predicate", Json.str "p1")]]) ∧
    (runNT true (Json.obj [("0", Json.obj [("subject", Json.str "s0")]),
        ("1", Json.obj [("predicate", Json.str "p1")])])).rows.length = 2 :=
  normalize_triples_numbered_dict true
    [("0", [("subject", Json.str "s0")]), ("1", [("predicate", Json.str "p1")])] rfl

/-- **C10, witness.**  The claim applied to a three-entry mapping with
two list-valued entries: the first one (under `"b"`) wins. -/
theorem normalize_triples_first_list_entry_witness :
    normalizeTriples true
        (Json.obj [("a", Json.num 1), ("b", Json.arr [Json.str "x"]),
                   ("c", Json.arr [Json.str "y"])]) =
      normalizeTriples true (Json.arr [Json.str "x"]) :=
  normalize_triples_first_list_entry true
    [("a", Json.num 1), ("b", Json.arr [Json.str "x"]), ("c", Json.arr [Json.str "y"])]
    [Json.str "x"] rfl rfl rfl

end BrandTriples
